import Mathlib

/-!
Shallow embedding of PeerTube's external media acquisition / import
orchestration subsystem, translated from:

* `src/server/helpers/youtube-dl/youtube-dl-cli.ts` (`YoutubeDLCLI`)
* `src/server/helpers/youtube-dl/youtube-dl-errors.ts`
* `src/server/lib/sync-channel.ts` (`synchronizeChannel`, `skipImport`)
* the `YoutubeDLWrapper` helper (`getInfoForDownload`, `getInfoForListImport`)
* `src/packages/ffmpeg/src/ffmpeg-hwenc.ts` (`canDoQuickAudioTranscode`,
  `canDoQuickVideoTranscode`, `getTargetBitrate`, `capBitrate`)

JavaScript numbers are modelled as exact rationals (`Rat`) or integers
(`Int`); `undefined` values are modelled with `Option`; thrown exceptions
with `Except`.  External collaborator functions that live outside the
embedded sources (the theoretical-bitrate table, `getMaxAudioBitrate`) are
passed as parameters so the embedded code stays faithful to what it calls.
-/

namespace PeerTube

/-! ## JavaScript string primitives used by `YoutubeDLCLI.run` -/

/-- ASCII whitespace recognised by JavaScript `String.prototype.trim`. -/
def jsIsWhitespace (c : Char) : Bool :=
  c == ' ' || c == '\t' || c == '\n' || c == '\r' ||
  c == Char.ofNat 11 || c == Char.ofNat 12

/-- JavaScript `s.trim()`: strip leading and trailing whitespace. -/
def jsTrim (s : String) : String :=
  String.mk (((s.data.dropWhile jsIsWhitespace).reverse.dropWhile jsIsWhitespace).reverse)

/-- Split a character list at every `\r\n` or `\n`, as JavaScript
`s.split(/\r?\n/)` does.  A lone `\r` is not a separator. -/
def splitNewlinesAux : List Char → List Char → List (List Char)
  | [], acc => [acc.reverse]
  | '\r' :: '\n' :: rest, acc => acc.reverse :: splitNewlinesAux rest []
  | '\n' :: rest, acc => acc.reverse :: splitNewlinesAux rest []
  | c :: rest, acc => splitNewlinesAux rest (c :: acc)

/-- JavaScript `s.split(/\r?\n/)`. -/
def splitNewlines (s : String) : List String :=
  (splitNewlinesAux s.data []).map String.mk

/-! ## `YoutubeDLCLI.run`: subprocess outcome classification

`youtube-dl-errors.ts` defines the typed error taxonomy; `run` maps the
`execa` process result to it (youtube-dl-cli.ts lines 342-380). -/

/-- Typed errors thrown by `YoutubeDLCLI.run`
(from `youtube-dl-errors.ts`). -/
inductive RunError where
  | execError (url : String)
  | retCodeError (retcode : Int) (url : String)
  | crashError (stderr : String) (url : String)
deriving DecidableEq, Repr

/-- The `execa` process result consumed by `run`. -/
structure ProcessOutput where
  exitCode : Int
  stdout : String
  stderr : String
deriving DecidableEq, Repr

/-- Outcome classification of `YoutubeDLCLI.run` (youtube-dl-cli.ts 361-379):
no result → `YoutubeDLCLIExecError`; non-zero exit code →
`YoutubeDLCLIRetCodeError`; non-empty stderr → `YoutubeDLCLICrashError`;
otherwise stdout trimmed and split on newlines (`undefined`, i.e. `none`,
when stdout is the empty string). -/
def run (url : String) (output : Option ProcessOutput) :
    Except RunError (Option (List String)) :=
  match output with
  | none => .error (.execError url)
  | some o =>
    if o.exitCode ≠ 0 then .error (.retCodeError o.exitCode url)
    else if o.stderr.length > 0 then .error (.crashError o.stderr url)
    else .ok (if o.stdout ≠ "" then some (splitNewlines (jsTrim o.stdout)) else none)

/-! ## `YoutubeDLCLI.getInfo` and `YoutubeDLWrapper.getInfoForDownload` -/

/-- Result shape of `getInfo`: a single record when exactly one stdout line
was produced (`info.length === 1 ? info[0] : info`), otherwise the ordered
sequence of records. -/
inductive InfoOut (α : Type) where
  | one (v : α)
  | many (vs : List α)
deriving DecidableEq, Repr

/-- Errors distinct from the typed subprocess errors: a `JSON.parse`
failure inside `getInfo` (which its `try` block does not cover). -/
inductive JsonError where
  | parseError (line : String)
deriving DecidableEq, Repr

/-- Map `JSON.parse` over the stdout lines, propagating the first parse
failure (`data.map(d => JSON.parse(d))`). -/
def parseLines {α : Type} (parse : String → Except JsonError α) :
    List String → Except JsonError (List α)
  | [] => .ok []
  | l :: rest =>
    match parse l with
    | .error e => .error e
    | .ok v =>
      match parseLines parse rest with
      | .error e => .error e
      | .ok vs => .ok (v :: vs)

/-- Model of `YoutubeDLCLI.getInfo` (youtube-dl-cli.ts 160-238), as a function of the
outcome of the underlying `run` call and of `JSON.parse`.  The `try` block
around `run` converts any subprocess error into `undefined` (`none`); a
`run` success with no stdout data is also `undefined`; otherwise each line
is parsed as one JSON record. -/
def getInfo {α : Type} (parse : String → Except JsonError α)
    (runResult : Except RunError (Option (List String))) :
    Except JsonError (Option (InfoOut α)) :=
  match runResult with
  | .error _ => .ok none
  | .ok none => .ok none
  | .ok (some data) =>
    match parseLines parse data with
    | .error e => .error e
    | .ok info =>
      match info with
      | [v] => .ok (some (.one v))
      | vs => .ok (some (.many vs))

/-- Canonical metadata produced by `YoutubeDLInfoBuilder.getInfo`; only the
fields inspected by `getInfoForDownload` are modelled. -/
structure BuiltInfo where
  isLive : Bool
  formatsCount : Nat
  webpageUrl : String
deriving DecidableEq, Repr

/-- Errors thrown by `YoutubeDLWrapper.getInfoForDownload`
(from `youtube-dl-errors.ts`). -/
inductive WrapperError where
  | noInfoError (url : String)
  | isLiveError (url : String)
  | noFormatsError (url : String)
  | jsonError (e : JsonError)
deriving DecidableEq, Repr

/-- Model of `YoutubeDLWrapper.getInfoForDownload`, as a function of the `getInfo`
result and of the info builder: `undefined` info →
`YoutubeDLNoInfoError`; a live record → `YoutubeDLIsLiveError`; no
formats → `YoutubeDLNoFormatsError`; otherwise the built record. -/
def getInfoForDownload {α : Type} (url : String) (build : InfoOut α → BuiltInfo)
    (infoResult : Except JsonError (Option (InfoOut α))) :
    Except WrapperError BuiltInfo :=
  match infoResult with
  | .error e => .error (.jsonError e)
  | .ok none => .error (.noInfoError url)
  | .ok (some info) =>
    let serializedInfo := build info
    if serializedInfo.isLive = true then .error (.isLiveError serializedInfo.webpageUrl)
    else if serializedInfo.formatsCount = 0 then .error (.noFormatsError serializedInfo.webpageUrl)
    else .ok serializedInfo

/-! ## `synchronizeChannel` (src/server/lib/sync-channel.ts)

The orchestration is modelled as a pure function of an environment that
fixes the outcome of every external call: the candidate-list resolution
(`getInfoForListImport`), the per-candidate `skipImport` decision, the
`buildYoutubeDLImport` job construction, and the
`JobQueue.createJobWithChildren` submission.  Session saves are recorded
in order. -/

/-- The `VideoChannelSyncState` values used by the orchestrator. -/
inductive SyncState where
  | processing
  | synced
  | failed
deriving DecidableEq, Repr

/-- A generic thrown JavaScript error.  `typeError` models the `TypeError`
raised when the `catch` block assigns `channelSync.state` while
`channelSync` is `undefined`. -/
inductive JsError where
  | thrown (msg : String)
  | typeError
deriving DecidableEq, Repr

/-- Environment fixing the outcomes of the external calls made by one
`synchronizeChannel` run. -/
structure SyncEnv where
  /-- outcome of `youtubeDL.getInfoForListImport` (step 2): the candidate
  target URLs, or a thrown error. -/
  listResult : Except JsError (List String)
  /-- outcome of `skipImport` for a target URL: `ok true` skip,
  `ok false` keep, `error` a thrown error (caught and logged, the loop
  continues with the next URL). -/
  skipResult : String → Except JsError Bool
  /-- outcome of `buildYoutubeDLImport` for a kept URL: the built child
  job, or a thrown error (escapes to the outer catch). -/
  buildResult : String → Except JsError String
  /-- outcome of `JobQueue.Instance.createJobWithChildren` on the built
  children. -/
  submitResult : List String → Except JsError Unit

/-- The candidate loop (steps 4-5): per-URL `skipImport` failures and
skips `continue`; `buildYoutubeDLImport` failures escape. -/
def buildJobs (env : SyncEnv) : List String → Except JsError (List String)
  | [] => .ok []
  | targetUrl :: rest =>
    match env.skipResult targetUrl with
    | .error _ => buildJobs env rest
    | .ok true => buildJobs env rest
    | .ok false =>
      match env.buildResult targetUrl with
      | .error e => .error e
      | .ok job =>
        match buildJobs env rest with
        | .error e => .error e
        | .ok jobs => .ok (job :: jobs)

/-- Observable outcome of one `synchronizeChannel` run. -/
structure SyncRun where
  /-- the session states saved via `channelSync.save()`, in order. -/
  savedStates : List SyncState
  /-- holds `some children` iff `createJobWithChildren(parent, children)` was
  reached (i.e. the parent finalize job was submitted). -/
  submitted : Option (List String)
  /-- the error propagated to the caller, if any. -/
  thrown : Option JsError
deriving DecidableEq, Repr

/-- The `catch` block of `synchronizeChannel`: with a session, `FAILED` is
assigned and saved and the error is swallowed; without a session the
assignment `channelSync.state = ...` itself throws a `TypeError` that
propagates to the caller. -/
def syncCatch (hasSession : Bool) (saved : List SyncState) : SyncRun :=
  if hasSession then
    { savedStates := saved ++ [SyncState.failed], submitted := none, thrown := none }
  else
    { savedStates := saved, submitted := none, thrown := some JsError.typeError }

/-- Model of `synchronizeChannel` (sync-channel.ts 13-100): set `PROCESSING` when a
session is supplied, resolve candidates, return `SYNCED` directly when
zero candidates, build child jobs, return early when no child job was
built, otherwise submit the parent finalize job with the children; the
`catch` block marks the session `FAILED`. -/
def synchronizeChannel (hasSession : Bool) (env : SyncEnv) : SyncRun :=
  let saved0 := if hasSession then [SyncState.processing] else []
  match env.listResult with
  | .error _ => syncCatch hasSession saved0
  | .ok targetUrls =>
    if targetUrls.length = 0 then
      { savedStates := saved0 ++ (if hasSession then [SyncState.synced] else []),
        submitted := none, thrown := none }
    else
      match buildJobs env targetUrls with
      | .error _ => syncCatch hasSession saved0
      | .ok jobs =>
        if jobs.length = 0 then
          { savedStates := saved0, submitted := none, thrown := none }
        else
          match env.submitResult jobs with
          | .error _ => syncCatch hasSession saved0
          | .ok _ => { savedStates := saved0, submitted := some jobs, thrown := none }

/-! ## TranscodeDecisionEngine (src/packages/ffmpeg/src/ffmpeg-hwenc.ts)

The theoretical-bitrate functions (`getAverageTheoreticalBitrate`,
`getMinTheoreticalBitrate`, `getMaxTheoreticalBitrate`) and
`getMaxAudioBitrate` live in external packages (`peertube-core-utils`,
`peertube-ffmpeg`) not part of the embedded sources; they are passed as
parameters.  JavaScript numbers are exact rationals here. -/

/-- Model of `capBitrate` (ffmpeg-hwenc.ts 278-285): a falsy (zero) input bitrate
leaves the target unchanged; otherwise cap at input + 30% margin. -/
def capBitrate (inputBitrate targetBitrate : ℚ) : ℚ :=
  if inputBitrate = 0 then targetBitrate
  else min targetBitrate (inputBitrate + inputBitrate * (3 / 10))

/-- Model of `getTargetBitrate` (ffmpeg-hwenc.ts 264-276): the average theoretical
bitrate capped by the input bitrate margin, floored at the minimum
theoretical bitrate.  `avg` and `lim` are the external
`getAverageTheoreticalBitrate` / `getMinTheoreticalBitrate` collaborators,
as functions of (resolution, fps, ratio). -/
def getTargetBitrate (avg lim : ℚ → ℚ → ℚ → ℚ)
    (inputBitrate resolution ratio fps : ℚ) : ℚ :=
  let capped := capBitrate inputBitrate (avg resolution fps ratio)
  let limit := lim resolution fps ratio
  max limit capped

/-- The audio stream fields inspected by `canDoQuickAudioTranscode`. -/
structure AudioStreamInfo where
  codec_name : String
  /-- field `channel_layout`; `none` models `undefined`. -/
  channel_layout : Option String
deriving DecidableEq, Repr

/-- Result of `getAudioStream`: the stream (if any) and its reported
bitrate (`none` models `undefined`). -/
structure ParsedAudio where
  audioStream : Option AudioStreamInfo
  bitrate : Option ℤ
deriving DecidableEq, Repr

/-- JavaScript truthiness of an optional string (`!channelLayout`). -/
def jsStrFalsy : Option String → Bool
  | none => true
  | some s => s == ""

/-- Model of `canDoQuickAudioTranscode` (ffmpeg-hwenc.ts 211-241).
`getMaxAudioBitrate` is the external collaborator; it returns `-1` when no
maximum is defined for the codec/bitrate class. -/
def canDoQuickAudioTranscode (getMaxAudioBitrate : String → ℤ → ℤ)
    (parsedAudio : ParsedAudio) : Bool :=
  match parsedAudio.audioStream with
  | none => true
  | some audioStream =>
    if audioStream.codec_name ≠ "aac" then false
    else
      match parsedAudio.bitrate with
      | none => false
      | some audioBitrate =>
        if audioBitrate = 0 then false
        else
          let maxAudioBitrate := getMaxAudioBitrate "aac" audioBitrate
          if maxAudioBitrate ≠ -1 ∧ audioBitrate > maxAudioBitrate then false
          else
            let channelLayout := audioStream.channel_layout
            if jsStrFalsy channelLayout || channelLayout == some "unknown"
                || channelLayout == some "quad" then false
            else true

/-- The video stream fields inspected by `canDoQuickVideoTranscode`. -/
structure VideoStreamInfo where
  codec_name : String
  pix_fmt : String
deriving DecidableEq, Repr

/-- Model of `canDoQuickVideoTranscode` (ffmpeg-hwenc.ts 243-260).  `maxTheo` is
the external `getMaxTheoreticalBitrate` collaborator applied to the probed
resolution data (of opaque type `ρ`) and fps. -/
def canDoQuickVideoTranscode {ρ : Type} (maxTheo : ρ → ℚ → ℤ)
    (videoStream : Option VideoStreamInfo) (fps : ℚ) (bitRate : Option ℤ)
    (resolutionData : ρ) : Bool :=
  match bitRate with
  | none => false
  | some br =>
    if br = 0 then false
    else
      match videoStream with
      | none => false
      | some vs =>
        if vs.codec_name ≠ "h264" then false
        else if vs.pix_fmt ≠ "yuv420p" then false
        else if fps < 2 ∨ fps > 65 then false
        else if br > maxTheo resolutionData fps then false
        else true

/-! ## FormatNegotiator (`YoutubeDLCLI.getYoutubeDLVideoFormat`) -/

/-- The single target resolution: the maximum of the enabled set, or
1080 (`VideoResolution.H_1080P`) when the set is empty
(youtube-dl-cli.ts 113-115). -/
def targetResolution (enabledResolutions : List ℕ) : ℕ :=
  if enabledResolutions.length = 0 then 1080
  else enabledResolutions.foldl max 0

/-- The ordered tier list built by `getYoutubeDLVideoFormat`
(youtube-dl-cli.ts 97-130): three resolution-specific tiers unless
best-format mode, then the four universal fallback tiers. -/
def formatTiers (enabledResolutions : List ℕ) (useBestFormat : Bool) : List String :=
  let result : List String :=
    if !useBestFormat then
      let resolution := targetResolution enabledResolutions
      [ "bestvideo[vcodec^=avc1][height=" ++ toString resolution ++ "]+bestaudio[ext=m4a]",
        "bestvideo[vcodec!*=av01][vcodec!*=vp9.2][height=" ++ toString resolution ++ "]+bestaudio",
        "bestvideo[vcodec^=avc1][height<=" ++ toString resolution ++ "]+bestaudio[ext=m4a]" ]
    else []
  result ++
    [ "bestvideo[vcodec!*=av01][vcodec!*=vp9.2]+bestaudio",
      "best[vcodec!*=av01][vcodec!*=vp9.2]",
      "bestvideo[ext=mp4]+bestaudio[ext=m4a]",
      "best" ]

/-- Model of `getYoutubeDLVideoFormat`: the tiers joined with the `/` or-else
separator. -/
def getYoutubeDLVideoFormat (enabledResolutions : List ℕ) (useBestFormat : Bool) : String :=
  String.intercalate "/" (formatTiers enabledResolutions useBestFormat)

/-- Whether `pat` begins the character list `s`. -/
def beginsWith : List Char → List Char → Bool
  | [], _ => true
  | _ :: _, [] => false
  | p :: ps, c :: cs => p == c && beginsWith ps cs

/-- Whether `pat` occurs as a contiguous segment of `s`. -/
def occursIn (pat : List Char) : List Char → Bool
  | [] => beginsWith pat []
  | c :: rest => beginsWith pat (c :: rest) || occursIn pat rest

/-- Substring test on strings. -/
def strOccurs (pat s : String) : Bool := occursIn pat.data s.data

/-- A tier excludes a codec when it carries the explicit
`[vcodec!*=codec]` filter or constrains the video codec to the `avc1`
(H.264) prefix, which rules out both `av01` and `vp9.2`. -/
def tierExcludes (codec tier : String) : Bool :=
  strOccurs ("[vcodec!*=" ++ codec ++ "]") tier || strOccurs "[vcodec^=avc1]" tier

/-! ## PlaylistFilter merge (`YoutubeDLCLI.getListInfo`) -/

/-- The listing-item fields involved in the flat/detailed merge. -/
structure ListItem where
  webpage_url : String
  timestamp : Option ℤ
  release_timestamp : Option ℤ
deriving DecidableEq, Repr

/-- JavaScript comparison `x > 0` where `x` may be `undefined`
(`flatItem?.timestamp > 0`): comparison with `undefined` is false. -/
def jsNumGtZero : Option ℤ → Bool
  | none => false
  | some t => t > 0

/-- One step of the merge loop body of `getListInfo`
(youtube-dl-cli.ts 300-309): find the flat-pass item with the same
webpage URL and adopt its `timestamp` / `release_timestamp` only when
strictly positive. -/
def mergeItem (flatList : List ListItem) (item : ListItem) : ListItem :=
  let flatItem := flatList.find? (fun o => o.webpage_url == item.webpage_url)
  let item1 :=
    if jsNumGtZero (flatItem.bind (fun f => f.timestamp)) then
      { item with timestamp := flatItem.bind (fun f => f.timestamp) }
    else item
  if jsNumGtZero (flatItem.bind (fun f => f.release_timestamp)) then
    { item1 with release_timestamp := flatItem.bind (fun f => f.release_timestamp) }
  else item1

/-- The merge of `getListInfo` (youtube-dl-cli.ts 294-315): applied only
when the flat pass produced entries, otherwise the detailed list is
returned unchanged. -/
def mergeLists (list flatList : List ListItem) : List ListItem :=
  if flatList.length > 0 then list.map (mergeItem flatList)
  else list

/-! ## Helper lemmas -/

/-- A string has positive length exactly when it is not the empty string. -/
theorem string_length_pos (s : String) : s.length > 0 ↔ s ≠ "" := by
  cases s with
  | mk d =>
    cases d <;> simp [String.length, String.ext_iff]

/-- A true JavaScript `x > 0` test on an optional integer yields a
strictly positive present value. -/
theorem jsNumGtZero_true (o : Option ℤ) (h : jsNumGtZero o = true) :
    ∃ t : ℤ, o = some t ∧ 0 < t := by
  cases o with
  | none => simp [jsNumGtZero] at h
  | some t =>
    refine ⟨t, rfl, ?_⟩
    simpa [jsNumGtZero] using h

/-- Appending on the right preserves a begins-with match. -/
theorem beginsWith_append (pat s x : List Char) (h : beginsWith pat s = true) :
    beginsWith pat (s ++ x) = true := by
  induction pat generalizing s with
  | nil => simp [beginsWith]
  | cons p ps ih =>
    cases s with
    | nil => simp [beginsWith] at h
    | cons c cs =>
      simp only [beginsWith, Bool.and_eq_true, beq_iff_eq] at h
      simp only [List.cons_append, beginsWith, Bool.and_eq_true, beq_iff_eq]
      exact ⟨h.1, ih cs h.2⟩

/-- An occurrence in the left part survives appending on the right. -/
theorem occursIn_append_left (pat a x : List Char) (h : occursIn pat a = true) :
    occursIn pat (a ++ x) = true := by
  induction a with
  | nil =>
    simp only [occursIn] at h
    cases pat with
    | nil =>
      cases x with
      | nil => simpa [occursIn] using h
      | cons c cs => simp [occursIn, beginsWith]
    | cons p ps => simp [beginsWith] at h
  | cons c cs ih =>
    simp only [occursIn, Bool.or_eq_true] at h
    rcases h with h | h
    · simp only [List.cons_append, occursIn, Bool.or_eq_true]
      exact Or.inl (beginsWith_append _ _ _ h)
    · simp only [List.cons_append, occursIn, Bool.or_eq_true]
      exact Or.inr (ih h)

/-- String append concatenates the underlying character lists. -/
theorem string_data_append (a b : String) : (a ++ b).data = a.data ++ b.data := by
  cases a
  cases b
  rfl

/-- A substring of `a` is a substring of `a ++ x`. -/
theorem strOccurs_append_left (pat a x : String) (h : strOccurs pat a = true) :
    strOccurs pat (a ++ x) = true := by
  unfold strOccurs at h ⊢
  rw [string_data_append]
  exact occursIn_append_left _ _ _ h

/-- The seed of a left max-fold is a lower bound of the fold. -/
theorem foldl_max_init_le (l : List ℕ) (a : ℕ) : a ≤ l.foldl max a := by
  induction l generalizing a with
  | nil => exact le_refl a
  | cons x xs ih => exact le_trans (le_max_left a x) (ih (max a x))

/-- Every member of a list is bounded by its left max-fold. -/
theorem le_foldl_max_of_mem (l : List ℕ) (r : ℕ) (h : r ∈ l) :
    ∀ a : ℕ, r ≤ l.foldl max a := by
  induction l with
  | nil => cases h
  | cons x xs ih =>
    intro a
    rcases List.mem_cons.mp h with rfl | h'
    · exact le_trans (le_max_right a r) (foldl_max_init_le xs (max a r))
    · exact ih h' (max a x)

/-- A left max-fold is either the seed or a member of the list. -/
theorem foldl_max_mem (l : List ℕ) (a : ℕ) : l.foldl max a = a ∨ l.foldl max a ∈ l := by
  induction l generalizing a with
  | nil => exact Or.inl rfl
  | cons x xs ih =>
    rcases ih (max a x) with h | h
    · rcases max_choice a x with h' | h'
      · exact Or.inl (by rw [List.foldl_cons, h, h'])
      · exact Or.inr (by rw [List.foldl_cons, h, h']; exact List.mem_cons_self x xs)
    · exact Or.inr (List.mem_cons_of_mem _ h)

/-- The target resolution of a non-empty enabled set is a member of it. -/
theorem targetResolution_mem (e : List ℕ) (h : e ≠ []) : targetResolution e ∈ e := by
  unfold targetResolution
  rw [if_neg (by simpa using h)]
  rcases foldl_max_mem e 0 with h0 | hm
  · cases e with
    | nil => exact absurd rfl h
    | cons x xs =>
      have hx : x ≤ (x :: xs).foldl max 0 :=
        le_foldl_max_of_mem _ _ (List.mem_cons_self x xs) 0
      rw [h0] at hx
      have : x = 0 := Nat.le_zero.mp hx
      rw [h0, ← this]
      exact List.mem_cons_self x xs
  · exact hm

/-! ## Claim C1 — `run` outcome classification -/

/-- C1 counterexample: with exit code 0, empty stderr and stdout
`"a\n\nb"`, `run` succeeds but the returned line list contains an empty
line, so the output is not "stdout trimmed and split into non-empty
lines" as the claim states. -/
theorem run_keeps_interior_empty_lines :
    run "https://example.com/watch?v=x" (some ⟨0, "a\n\nb", ""⟩) =
      .ok (some ["a", "", "b"]) ∧ ("" : String) ∈ ["a", "", "b"] := by
  exact ⟨rfl, by decide⟩

/-- C1 (amended): `run` classification — no process result →
`YoutubeDLCLIExecError`; non-zero exit code → `YoutubeDLCLIRetCodeError`
carrying the code and URL; non-empty stderr with exit 0 →
`YoutubeDLCLICrashError` carrying the stderr text and URL; exit 0 with
empty stderr → success, returning stdout trimmed and split on newlines
(interior empty lines are preserved), or no line list at all when stdout
is empty. -/
theorem run_exit_classification (url : String) (o : ProcessOutput) :
    (run url none = .error (.execError url)) ∧
    (o.exitCode ≠ 0 → run url (some o) = .error (.retCodeError o.exitCode url)) ∧
    (o.exitCode = 0 → o.stderr ≠ "" → run url (some o) = .error (.crashError o.stderr url)) ∧
    (o.exitCode = 0 → o.stderr = "" → o.stdout ≠ "" →
      run url (some o) = .ok (some (splitNewlines (jsTrim o.stdout)))) ∧
    (o.exitCode = 0 → o.stderr = "" → o.stdout = "" → run url (some o) = .ok none) := by
  refine ⟨rfl, ?_, ?_, ?_, ?_⟩
  · intro h
    simp [run, h]
  · intro h1 h2
    have : o.stderr.length > 0 := (string_length_pos o.stderr).mpr h2
    simp [run, h1, this]
  · intro h1 h2 h3
    simp [run, h1, h2, h3]
  · intro h1 h2 h3
    simp [run, h1, h2, h3]

/-- C1 witness: a non-zero exit code at a concrete input produces the
retcode error with that code and URL. -/
theorem run_exit_classification_witness :
    run "u" (some ⟨1, "", ""⟩) = .error (.retCodeError 1 "u") :=
  (run_exit_classification "u" ⟨1, "", ""⟩).2.1 (by decide)

/-! ## Claim C2 — parent finalize job when no children are built -/

/-- C2 counterexample: one candidate URL that `skipImport` skips — the run
ends with no submission at all (the parent finalize job included) and the
session's last saved state is `PROCESSING`, never `SYNCED`. -/
theorem sync_all_skipped_no_parent_submitted :
    synchronizeChannel true
        ⟨.ok ["https://example.com/watch?v=a"], fun _ => .ok true,
          fun u => .ok u, fun _ => .ok ()⟩ =
      { savedStates := [SyncState.processing], submitted := none, thrown := none } ∧
    SyncState.synced ∉
      (synchronizeChannel true
        ⟨.ok ["https://example.com/watch?v=a"], fun _ => .ok true,
          fun u => .ok u, fun _ => .ok ()⟩).savedStates := by
  exact ⟨rfl, by decide⟩

/-- C2 (amended): when the resolved candidate list is empty the session is
set `SYNCED` directly and no job (parent included) is submitted; when
candidates exist but every one is skipped, the run returns early with no
submission and the session's last saved state remains `PROCESSING`. -/
theorem sync_no_children_behaviour (env : SyncEnv) :
    (env.listResult = .ok [] →
      synchronizeChannel true env =
        { savedStates := [SyncState.processing, SyncState.synced],
          submitted := none, thrown := none }) ∧
    (∀ urls, env.listResult = .ok urls → urls ≠ [] → buildJobs env urls = .ok [] →
      synchronizeChannel true env =
        { savedStates := [SyncState.processing], submitted := none, thrown := none }) := by
  constructor
  · intro h
    simp [synchronizeChannel, h]
  · intro urls hl hn hb
    have hn' : urls.length ≠ 0 := by simpa using hn
    simp [synchronizeChannel, hl, hn', hb]

/-- C2 witness: a zero-candidate run saves `PROCESSING` then `SYNCED` and
submits nothing. -/
theorem sync_no_children_behaviour_witness :
    synchronizeChannel true
        ⟨.ok [], fun _ => .ok false, fun u => .ok u, fun _ => .ok ()⟩ =
      { savedStates := [SyncState.processing, SyncState.synced],
        submitted := none, thrown := none } :=
  (sync_no_children_behaviour
    ⟨.ok [], fun _ => .ok false, fun u => .ok u, fun _ => .ok ()⟩).1 rfl

/-! ## Claim C3 — exceptions mark the session FAILED -/

/-- C3: if an exception escapes candidate resolution, job building or job
submission, then with a session supplied the run saves `PROCESSING` then
`FAILED` and propagates nothing, while without a session an error still
propagates to the caller (the `TypeError` raised by the unguarded
`channelSync.state` assignment in the catch block). -/
theorem sync_failure_marks_failed (env : SyncEnv) (e : JsError)
    (h : env.listResult = .error e ∨
      (∃ urls, env.listResult = .ok urls ∧ urls.length ≠ 0 ∧
        buildJobs env urls = .error e) ∨
      (∃ urls jobs, env.listResult = .ok urls ∧ urls.length ≠ 0 ∧
        buildJobs env urls = .ok jobs ∧ jobs.length ≠ 0 ∧
        env.submitResult jobs = .error e)) :
    (synchronizeChannel true env).savedStates = [SyncState.processing, SyncState.failed] ∧
    (synchronizeChannel true env).thrown = none ∧
    (synchronizeChannel false env).savedStates = [] ∧
    (synchronizeChannel false env).thrown = some JsError.typeError := by
  rcases h with h | ⟨urls, hl, hn, hb⟩ | ⟨urls, jobs, hl, hn, hb, hj, hs⟩
  · simp [synchronizeChannel, h, syncCatch]
  · simp [synchronizeChannel, hl, hn, hb, syncCatch]
  · simp [synchronizeChannel, hl, hn, hb, hj, hs, syncCatch]

/-- C3 witness: a failed listing call at a concrete environment marks a
supplied session `FAILED`, and without a session an error propagates. -/
theorem sync_failure_marks_failed_witness :
    (synchronizeChannel true
        ⟨.error (.thrown "network down"), fun _ => .ok true,
          fun u => .ok u, fun _ => .ok ()⟩).savedStates =
      [SyncState.processing, SyncState.failed] ∧
    (synchronizeChannel false
        ⟨.error (.thrown "network down"), fun _ => .ok true,
          fun u => .ok u, fun _ => .ok ()⟩).thrown = some JsError.typeError := by
  have h := sync_failure_marks_failed
    ⟨.error (.thrown "network down"), fun _ => .ok true, fun u => .ok u, fun _ => .ok ()⟩
    (.thrown "network down") (Or.inl rfl)
  exact ⟨h.1, h.2.2.2⟩

/-! ## Claim C4 — target bitrate formula -/

/-- C4: the computed target bitrate equals
`max(minTheoreticalBitrate, min(averageTheoreticalBitrate, 1.3 × inputBitrate))`
when an input bitrate is known (non-zero), and equals the average
theoretical bitrate floored at the minimum theoretical bitrate when no
input bitrate is known. -/
theorem getTargetBitrate_formula (avg lim : ℚ → ℚ → ℚ → ℚ)
    (inputBitrate resolution ratio fps : ℚ) :
    getTargetBitrate avg lim inputBitrate resolution ratio fps =
      if inputBitrate = 0 then
        max (lim resolution fps ratio) (avg resolution fps ratio)
      else
        max (lim resolution fps ratio)
          (min (avg resolution fps ratio) ((13 / 10) * inputBitrate)) := by
  have harith : inputBitrate + inputBitrate * (3 / 10) = (13 / 10) * inputBitrate := by ring
  by_cases h : inputBitrate = 0 <;> simp [getTargetBitrate, capBitrate, h, harith]

/-! ## Claim C5 — target bitrate bounds -/

/-- C5 counterexample: with a minimum theoretical bitrate of 1000, an
average of 2000 and a positive input bitrate of 1, the result is the
floor 1000, which exceeds `1.3 × inputBitrate = 1.3` — so
`result ≤ 1.3 × inputBitrate` does not hold for every positive input
bitrate. -/
theorem target_bitrate_floor_beats_input_cap :
    getTargetBitrate (fun _ _ _ => 2000) (fun _ _ _ => 1000) 1 720 (16 / 9) 30 = 1000 ∧
    ¬(getTargetBitrate (fun _ _ _ => 2000) (fun _ _ _ => 1000) 1 720 (16 / 9) 30 ≤
        (13 / 10) * 1) := by
  constructor <;> norm_num [getTargetBitrate, capBitrate]

/-- C5 (amended): the result is bounded below by the minimum theoretical
bitrate; it is bounded above by the average theoretical bitrate whenever
the minimum does not exceed the average; and it is bounded by
`1.3 × inputBitrate` whenever the input bitrate is positive and
`1.3 × inputBitrate` is itself at least the minimum (the floor is never
undercut). -/
theorem getTargetBitrate_bounds (avg lim : ℚ → ℚ → ℚ → ℚ)
    (inputBitrate resolution ratio fps : ℚ) :
    lim resolution fps ratio ≤ getTargetBitrate avg lim inputBitrate resolution ratio fps ∧
    (lim resolution fps ratio ≤ avg resolution fps ratio →
      getTargetBitrate avg lim inputBitrate resolution ratio fps ≤
        avg resolution fps ratio) ∧
    (0 < inputBitrate →
      lim resolution fps ratio ≤ (13 / 10) * inputBitrate →
      getTargetBitrate avg lim inputBitrate resolution ratio fps ≤
        (13 / 10) * inputBitrate) := by
  have harith : inputBitrate + inputBitrate * (3 / 10) = (13 / 10) * inputBitrate := by ring
  refine ⟨le_max_left _ _, ?_, ?_⟩
  · intro hfa
    apply max_le hfa
    unfold capBitrate
    split
    · exact le_refl _
    · exact min_le_left _ _
  · intro hpos hf
    apply max_le hf
    unfold capBitrate
    rw [if_neg (ne_of_gt hpos), harith]
    exact min_le_right _ _

/-- C5 witness: at a concrete input whose bitrate margin exceeds the
average, the result stays within the average bound. -/
theorem getTargetBitrate_bounds_witness :
    getTargetBitrate (fun _ _ _ => 2000) (fun _ _ _ => 1000) 2000 1080 (16 / 9) 30 ≤ 2000 :=
  (getTargetBitrate_bounds (fun _ _ _ => 2000) (fun _ _ _ => 1000) 2000 1080 (16 / 9) 30).2.1
    (by norm_num)

/-! ## Claim C6 — quick audio transcode verdict -/

/-- C6: `canDoQuickAudioTranscode` is true exactly when either no audio
stream exists, or the stream's codec is exactly `aac`, a non-zero bitrate
is reported, the bitrate does not exceed the codec's maximum theoretical
bitrate whenever that maximum is defined (not `-1`), and the channel
layout is a present non-empty value that is neither `unknown` nor `quad`;
in particular the stream `{codec_name: aac, bitrate: 128000,
channel_layout: stereo}` with max-AAC-bitrate(128000) = 128000 is
accepted. -/
theorem canDoQuickAudioTranscode_iff (mx : String → ℤ → ℤ) (p : ParsedAudio) :
    (canDoQuickAudioTranscode mx p = true ↔
      p.audioStream = none ∨
      ∃ stream bitrate, p.audioStream = some stream ∧ p.bitrate = some bitrate ∧
        stream.codec_name = "aac" ∧ bitrate ≠ 0 ∧
        (mx "aac" bitrate ≠ -1 → bitrate ≤ mx "aac" bitrate) ∧
        ∃ cl, stream.channel_layout = some cl ∧ cl ≠ "" ∧ cl ≠ "unknown" ∧ cl ≠ "quad") ∧
    canDoQuickAudioTranscode (fun _ b => b)
      ⟨some ⟨"aac", some "stereo"⟩, some 128000⟩ = true := by
  constructor
  · cases hs : p.audioStream with
    | none => simp [canDoQuickAudioTranscode, hs]
    | some stream =>
      cases hb : p.bitrate with
      | none => simp [canDoQuickAudioTranscode, hs, hb]
      | some bitrate =>
        simp only [canDoQuickAudioTranscode, hs, hb, Option.some.injEq, reduceCtorEq,
          false_or]
        constructor
        · intro h
          by_cases h1 : stream.codec_name = "aac"
          · by_cases h2 : bitrate = 0
            · simp [h1, h2] at h
            · by_cases h3 : mx "aac" bitrate ≠ -1 ∧ bitrate > mx "aac" bitrate
              · simp [h1, h2, h3] at h
              · cases hcl : stream.channel_layout with
                | none => simp [h1, h2, h3, jsStrFalsy, hcl] at h
                | some cl =>
                  by_cases h4 : cl = "" ∨ cl = "unknown" ∨ cl = "quad"
                  · rcases h4 with h4 | h4 | h4 <;>
                      simp [h1, h2, h3, jsStrFalsy, hcl, h4] at h
                  · push_neg at h3 h4
                    exact ⟨stream, bitrate, rfl, rfl, h1, h2, h3, cl, hcl,
                      h4.1, h4.2.1, h4.2.2⟩
          · simp [canDoQuickAudioTranscode, h1] at h
        · rintro ⟨stream', bitrate', hs', hb', h1, h2, h3, cl, hcl, hcl1, hcl2, hcl3⟩
          obtain rfl := hs'
          obtain rfl := hb'
          have hnot : ¬(mx "aac" bitrate ≠ -1 ∧ bitrate > mx "aac" bitrate) := by
            rintro ⟨hne, hgt⟩
            exact absurd (h3 hne) (Int.not_le.mpr hgt)
          simp [h1, h2, hnot, jsStrFalsy, hcl, hcl1, hcl2, hcl3]
  · decide

/-- C6 witness: the claim's scenario stream is accepted. -/
theorem canDoQuickAudioTranscode_iff_witness :
    canDoQuickAudioTranscode (fun _ b => b)
      ⟨some ⟨"aac", some "stereo"⟩, some 128000⟩ = true :=
  (canDoQuickAudioTranscode_iff (fun _ b => b)
    ⟨some ⟨"aac", some "stereo"⟩, some 128000⟩).2

/-! ## Claim C7 — quick video transcode verdict -/

/-- C7: `canDoQuickVideoTranscode` is true exactly when the bitrate is
known and non-zero, the stream exists with codec `h264` and pixel format
`yuv420p`, the frame rate is not rejected (rejection happens exactly when
`fps < 2` or `fps > 65`), and the bitrate does not exceed the maximum
theoretical bitrate for the stream's resolution data and frame rate; in
particular an `h264`/`yuv420p` stream with `fps = 70` is rejected. -/
theorem canDoQuickVideoTranscode_iff {ρ : Type} (mt : ρ → ℚ → ℤ)
    (videoStream : Option VideoStreamInfo) (fps : ℚ) (bitRate : Option ℤ)
    (rd : ρ) :
    (canDoQuickVideoTranscode mt videoStream fps bitRate rd = true ↔
      ∃ br vs, bitRate = some br ∧ videoStream = some vs ∧ br ≠ 0 ∧
        vs.codec_name = "h264" ∧ vs.pix_fmt = "yuv420p" ∧
        ¬(fps < 2 ∨ fps > 65) ∧ br ≤ mt rd fps) ∧
    canDoQuickVideoTranscode (fun (_ : Unit) _ => (1000000000 : ℤ))
      (some ⟨"h264", "yuv420p"⟩) 70 (some 5000000) () = false := by
  constructor
  · cases hb : bitRate with
    | none => simp [canDoQuickVideoTranscode, hb]
    | some br =>
      cases hvs : videoStream with
      | none => simp [canDoQuickVideoTranscode, hb, hvs]
      | some vs =>
        simp only [canDoQuickVideoTranscode, hb, hvs, Option.some.injEq]
        constructor
        · intro h
          by_cases h1 : br = 0
          · simp [h1] at h
          · by_cases h2 : vs.codec_name = "h264"
            · by_cases h3 : vs.pix_fmt = "yuv420p"
              · by_cases h4 : fps < 2 ∨ fps > 65
                · simp [h1, h2, h3, h4] at h
                · by_cases h5 : br > mt rd fps
                  · simp [h1, h2, h3, h4, h5] at h
                  · exact ⟨br, vs, rfl, rfl, h1, h2, h3, h4, Int.not_lt.mp h5⟩
              · simp [h1, h2, h3] at h
            · simp [h1, h2] at h
        · rintro ⟨br', vs', hb', hvs', h1, h2, h3, h4, h5⟩
          obtain rfl := hb'
          obtain rfl := hvs'
          simp [h1, h2, h3, h4, Int.not_lt.mpr h5]
  · decide

/-- C7 witness: the claim's scenario — a 70 fps `h264`/`yuv420p` stream —
is rejected. -/
theorem canDoQuickVideoTranscode_iff_witness :
    canDoQuickVideoTranscode (fun (_ : Unit) _ => (1000000000 : ℤ))
      (some ⟨"h264", "yuv420p"⟩) 70 (some 5000000) () = false :=
  (canDoQuickVideoTranscode_iff (fun (_ : Unit) _ => (1000000000 : ℤ))
    (some ⟨"h264", "yuv420p"⟩) 70 (some 5000000) ()).2

/-! ## Claim C8 — format-selector chain structure -/

/-- C8 counterexample: the ultimate fallback tier `best` is a tier of
every emitted chain (here for best-format mode) and carries neither an
`av01` nor a `vp9.2` codec exclusion, so the codecs are not excluded
throughout every tier of the chain. -/
theorem best_tier_lacks_codec_exclusion :
    "best" ∈ formatTiers [] true ∧
    tierExcludes "av01" "best" = false ∧ tierExcludes "vp9.2" "best" = false := by
  refine ⟨?_, by decide, by decide⟩
  simp [formatTiers]

/-- C8 (amended): the emitted chain has `(3 tiers if not best-format) + 4`
tiers joined in declared order by the `/` separator; the single target
resolution is the maximum of the enabled set, or 1080 when the set is
empty; and the `av01` and `vp9.2` codecs are excluded in every tier except
the last two (the MP4-extension tier and the unconditional `best` tier
carry no codec exclusion). -/
theorem format_chain_structure (e : List ℕ) (b : Bool) :
    (formatTiers e b).length = (if b then 0 else 3) + 4 ∧
    getYoutubeDLVideoFormat e b = String.intercalate "/" (formatTiers e b) ∧
    (e = [] → targetResolution e = 1080) ∧
    (e ≠ [] → targetResolution e ∈ e ∧ ∀ r ∈ e, r ≤ targetResolution e) ∧
    (∀ t ∈ (formatTiers e b).take ((formatTiers e b).length - 2),
      tierExcludes "av01" t = true ∧ tierExcludes "vp9.2" t = true) := by
  refine ⟨?_, rfl, ?_, ?_, ?_⟩
  · cases b <;> simp [formatTiers]
  · intro h
    simp [targetResolution, h]
  · intro h
    refine ⟨targetResolution_mem e h, ?_⟩
    intro r hr
    unfold targetResolution
    rw [if_neg (by simpa using h)]
    exact le_foldl_max_of_mem e r hr 0
  · cases b with
    | true =>
      intro t ht
      simp only [formatTiers] at ht
      fin_cases ht <;> exact ⟨by decide, by decide⟩
    | false =>
      intro t ht
      simp only [formatTiers] at ht
      fin_cases ht
      · exact ⟨by
          apply Bool.or_eq_true_iff.mpr
          exact Or.inr (strOccurs_append_left _ _ _ (strOccurs_append_left _ _ _ (by decide))),
        by
          apply Bool.or_eq_true_iff.mpr
          exact Or.inr (strOccurs_append_left _ _ _ (strOccurs_append_left _ _ _ (by decide)))⟩
      · exact ⟨by
          apply Bool.or_eq_true_iff.mpr
          exact Or.inl (strOccurs_append_left _ _ _ (strOccurs_append_left _ _ _ (by decide))),
        by
          apply Bool.or_eq_true_iff.mpr
          exact Or.inl (strOccurs_append_left _ _ _ (strOccurs_append_left _ _ _ (by decide)))⟩
      · exact ⟨by
          apply Bool.or_eq_true_iff.mpr
          exact Or.inr (strOccurs_append_left _ _ _ (strOccurs_append_left _ _ _ (by decide))),
        by
          apply Bool.or_eq_true_iff.mpr
          exact Or.inr (strOccurs_append_left _ _ _ (strOccurs_append_left _ _ _ (by decide)))⟩
      · exact ⟨by decide, by decide⟩
      · exact ⟨by decide, by decide⟩

/-- C8 witness: the target resolution of a concrete enabled set is one of
its members. -/
theorem format_chain_structure_witness :
    targetResolution [480, 1080, 720] ∈ [480, 1080, 720] :=
  ((format_chain_structure [480, 1080, 720] false).2.2.2.1 (by decide)).1

/-! ## Claim C9 — flat/detailed playlist merge invariant -/

/-- C9: in the playlist merge, a flat-pass `timestamp` or
`release_timestamp` overwrites the detailed-pass value only when the
flat-pass value is present and strictly positive; a zero or absent
flat-pass value never changes the detailed-pass value; and when the flat
pass is non-empty the merged listing is the detailed listing mapped
through this per-entry merge. -/
theorem merge_overwrites_only_positive (l fl : List ListItem) (it : ListItem) :
    (jsNumGtZero ((fl.find? (fun o => o.webpage_url == it.webpage_url)).bind
        (fun f => f.timestamp)) = false →
      (mergeItem fl it).timestamp = it.timestamp) ∧
    (jsNumGtZero ((fl.find? (fun o => o.webpage_url == it.webpage_url)).bind
        (fun f => f.release_timestamp)) = false →
      (mergeItem fl it).release_timestamp = it.release_timestamp) ∧
    ((mergeItem fl it).timestamp ≠ it.timestamp →
      ∃ t : ℤ, 0 < t ∧
        (fl.find? (fun o => o.webpage_url == it.webpage_url)).bind
          (fun f => f.timestamp) = some t ∧
        (mergeItem fl it).timestamp = some t) ∧
    ((mergeItem fl it).release_timestamp ≠ it.release_timestamp →
      ∃ t : ℤ, 0 < t ∧
        (fl.find? (fun o => o.webpage_url == it.webpage_url)).bind
          (fun f => f.release_timestamp) = some t ∧
        (mergeItem fl it).release_timestamp = some t) ∧
    (0 < fl.length → mergeLists l fl = l.map (mergeItem fl)) := by
  set flatItem := fl.find? (fun o => o.webpage_url == it.webpage_url) with hfi
  by_cases hts : jsNumGtZero (flatItem.bind (fun f => f.timestamp)) = true
  · by_cases hrel : jsNumGtZero (flatItem.bind (fun f => f.release_timestamp)) = true
    · obtain ⟨t, htv, htp⟩ := jsNumGtZero_true _ hts
      obtain ⟨u, huv, hup⟩ := jsNumGtZero_true _ hrel
      refine ⟨?_, ?_, ?_, ?_, ?_⟩
      · intro h; rw [hts] at h; cases h
      · intro h; rw [hrel] at h; cases h
      · intro _
        exact ⟨t, htp, htv, by
          simp [mergeItem, ← hfi, hts, hrel, htv, jsNumGtZero, htp]
          split <;> rfl⟩
      · intro _
        exact ⟨u, hup, huv, by simp [mergeItem, ← hfi, hts, hrel, huv, jsNumGtZero, hup]⟩
      · intro h; simp [mergeLists, h]
    · rw [Bool.not_eq_true] at hrel
      obtain ⟨t, htv, htp⟩ := jsNumGtZero_true _ hts
      refine ⟨?_, ?_, ?_, ?_, ?_⟩
      · intro h; rw [hts] at h; cases h
      · intro _; simp [mergeItem, ← hfi, hts, hrel]
      · intro _
        exact ⟨t, htp, htv, by
          simp [mergeItem, ← hfi, hts, hrel, htv, jsNumGtZero, htp]
          split <;> rfl⟩
      · intro h
        exact absurd (by simp [mergeItem, ← hfi, hts, hrel]) h
      · intro h; simp [mergeLists, h]
  · rw [Bool.not_eq_true] at hts
    by_cases hrel : jsNumGtZero (flatItem.bind (fun f => f.release_timestamp)) = true
    · obtain ⟨u, huv, hup⟩ := jsNumGtZero_true _ hrel
      refine ⟨?_, ?_, ?_, ?_, ?_⟩
      · intro _; simp [mergeItem, ← hfi, hts, hrel]
      · intro h; rw [hrel] at h; cases h
      · intro h
        exact absurd (by simp [mergeItem, ← hfi, hts, hrel]) h
      · intro _
        exact ⟨u, hup, huv, by simp [mergeItem, ← hfi, hts, hrel, huv, jsNumGtZero, hup]⟩
      · intro h; simp [mergeLists, h]
    · rw [Bool.not_eq_true] at hrel
      refine ⟨?_, ?_, ?_, ?_, ?_⟩
      · intro _; simp [mergeItem, ← hfi, hts, hrel]
      · intro _; simp [mergeItem, ← hfi, hts, hrel]
      · intro h
        exact absurd (by simp [mergeItem, ← hfi, hts, hrel]) h
      · intro h
        exact absurd (by simp [mergeItem, ← hfi, hts, hrel]) h
      · intro h; simp [mergeLists, h]

/-- C9 witness: a flat-pass entry whose timestamp is zero does not
overwrite the detailed-pass timestamp of the matching entry. -/
theorem merge_overwrites_only_positive_witness :
    (mergeItem [⟨"u", some 0, none⟩] ⟨"u", some 5, some 7⟩).timestamp = some 5 :=
  (merge_overwrites_only_positive [] [⟨"u", some 0, none⟩] ⟨"u", some 5, some 7⟩).1
    (by decide)

/-! ## Claim C10 — getInfo returns undefined instead of subprocess errors -/

/-- C10: `getInfo` never propagates a typed subprocess error — any failed
`run` yields `undefined` (`none`), as does a `run` success carrying no
output data — and `getInfoForDownload` surfaces that `undefined` result
as `YoutubeDLNoInfoError`. -/
theorem getInfo_swallows_run_errors {α : Type} (parse : String → Except JsonError α)
    (e : RunError) (url : String) (build : InfoOut α → BuiltInfo) :
    getInfo parse (.error e) = .ok none ∧
    getInfo parse (.ok none) = .ok none ∧
    getInfoForDownload url build (getInfo parse (.error e)) =
      .error (.noInfoError url) ∧
    getInfoForDownload url build (getInfo parse (.ok none)) =
      .error (.noInfoError url) := by
  exact ⟨rfl, rfl, rfl, rfl⟩

end PeerTube
